import Mathlib

/-!
Verification of the enrollment-and-matching workflow of the face-recall
application (modules `database.js`, `people.js`, `recognition.js`).

The JavaScript modules are shallowly embedded: module-level mutable state
becomes explicit state records threaded through the functions, asynchronous
database callbacks become `Except`-valued functions, and the environment
(photo dialog results, face-detection outcomes, fresh NeDB identifiers,
wall-clock time) is passed in as parameters.  Face descriptors are modelled
as rational vectors and the distance metric of the external matcher is kept
as an explicit function parameter, since the library computes it in
floating point.  JSON serialization of records is modelled as the identity
on the record values.
-/

/-- A face descriptor: a fixed-length numeric embedding vector. -/
abbrev Descriptor := List ℚ

/-- The identifier-free fields of a person record, as built by
`savePerson` in `people.js` and inserted by `addPerson` in `database.js`.
`faceDescriptor` is optional because the store inserts whatever object it
is handed, including objects with no descriptor. -/
structure PersonData where
  name : String
  relationship : String
  notes : String
  faceDescriptor : Option Descriptor
  images : List String
  createdAt : Nat
  lastRecognized : Option Nat
  deriving Repr, DecidableEq

/-- A stored person document: the NeDB-assigned `_id` plus the data
fields.  Corresponds to the documents returned by `db.insert`. -/
structure PersonDoc where
  _id : String
  data : PersonData
  deriving Repr, DecidableEq

/-- The `$set`-style update object built by the editing branch of
`savePerson` in `people.js` (name, relationship, notes, images,
faceDescriptor). -/
structure PersonUpdate where
  name : String
  relationship : String
  notes : String
  images : List String
  faceDescriptor : Option Descriptor
  deriving Repr, DecidableEq

/-- Applying a `$set` update to a stored document, as NeDB's
`db.update({_id: id}, {$set: updates})` does for the update object used by
`savePerson`. -/
def applyUpdate (p : PersonDoc) (u : PersonUpdate) : PersonDoc :=
  { p with data := { p.data with
      name := u.name
      relationship := u.relationship
      notes := u.notes
      images := u.images
      faceDescriptor := u.faceDescriptor } }

/-- JavaScript's `String.prototype.trim()` as used by `savePerson`:
strip leading and trailing whitespace.  (Lean's own `String.trim` is
defined by well-founded recursion on substrings and does not reduce in
the kernel, so the same function is given here over the character
list.) -/
def trimmed (s : String) : String :=
  ⟨((s.data.dropWhile Char.isWhitespace).reverse.dropWhile Char.isWhitespace).reverse⟩

/-- Replace the first document with the given `_id`, mirroring the
`findIndex` / single-document (`multi: false`) update idiom used both by
NeDB and by the in-memory `knownPeople` list updates in `people.js`. -/
def setFirst (l : List PersonDoc) (pid : String) (f : PersonDoc → PersonDoc) :
    List PersonDoc :=
  match l with
  | [] => []
  | p :: ps => if p._id == pid then f p :: ps else p :: setFirst ps pid f

namespace Database

/-- The state of the `database.js` module: the `initialized` flag set by
`init`, and the NeDB datastore contents, modelled as the list of stored
documents in insertion order. -/
structure DbState where
  initialized : Bool
  docs : List PersonDoc
  deriving Repr, DecidableEq

/-- Function `addPerson` from `database.js`: rejects when the database is not
initialized, otherwise inserts the document and resolves with the new
document carrying its store-assigned `_id` (the fresh NeDB identifier is
supplied as `freshId`).  No field validation is performed. -/
def addPerson (db : DbState) (freshId : String) (p : PersonData) :
    Except String (PersonDoc × DbState) :=
  if db.initialized then
    let doc : PersonDoc := ⟨freshId, p⟩
    .ok (doc, { db with docs := db.docs ++ [doc] })
  else
    .error "Database not initialized"

/-- Function `deletePerson` from `database.js`: `db.remove({_id: id})`, resolving
with the number of removed documents. -/
def deletePerson (db : DbState) (id : String) :
    Except String (Nat × DbState) :=
  if db.initialized then
    let remaining := db.docs.filter (fun d => d._id != id)
    .ok (db.docs.length - remaining.length, { db with docs := remaining })
  else
    .error "Database not initialized"

/-- Function `updatePerson` from `database.js`: `db.update({_id: id}, {$set: u})`
on a single document, resolving with the number of replaced documents. -/
def updatePerson (db : DbState) (id : String) (u : PersonUpdate) :
    Except String (Nat × DbState) :=
  if db.initialized then
    .ok (if db.docs.any (fun d => d._id == id) then 1 else 0,
      { db with docs := setFirst db.docs id (fun d => applyUpdate d u) })
  else
    .error "Database not initialized"

end Database

/-- A labelled gallery entry: the `LabeledFaceDescriptors` built by
`recognizeFace` in `recognition.js` from a known person
(`person._id` as label, `person.faceDescriptor` as the single
reference descriptor). -/
structure GalleryEntry where
  label : String
  descriptor : Descriptor
  deriving Repr, DecidableEq

/-- The result of the matcher: a label and the distance of the best
match, as in the library's `FaceMatch`. -/
structure FaceMatch where
  label : String
  distance : ℚ
  deriving Repr, DecidableEq

/-- Running best-match fold over the remaining gallery entries, keeping
the entry at strictly smaller distance when one is found. -/
def bestMatchFold (dist : Descriptor → Descriptor → ℚ) (probe : Descriptor)
    (init : FaceMatch) (l : List GalleryEntry) : FaceMatch :=
  l.foldl
    (fun best e =>
      if dist e.descriptor probe < best.distance then
        ⟨e.label, dist e.descriptor probe⟩
      else best)
    init

/-- Modelled from the spec: the external library's
`FaceMatcher.findBestMatch` (face-api.js, not part of this repository).
Per the spec's matcher contract it computes the distance from the probe
to every gallery entry under a fixed metric (kept here as the parameter
`dist`), returns the entry at minimum distance when that distance is ≤
the threshold (inclusive comparison at the boundary), and otherwise
reports label "unknown"; an empty gallery always yields "unknown". -/
def findBestMatch (dist : Descriptor → Descriptor → ℚ)
    (gallery : List GalleryEntry) (threshold : ℚ) (probe : Descriptor) :
    FaceMatch :=
  match gallery with
  | [] => ⟨"unknown", 0⟩
  | e :: es =>
    let best := bestMatchFold dist probe ⟨e.label, dist e.descriptor probe⟩ es
    if best.distance ≤ threshold then best else ⟨"unknown", best.distance⟩

/-- A concrete distance function usable in executable tests: squared
Euclidean distance over the paired coordinates. -/
def distSq : Descriptor → Descriptor → ℚ :=
  fun a b => ((a.zip b).map (fun p => (p.1 - p.2) * (p.1 - p.2))).sum

namespace Recognition

/-- The module-level mutable state of `recognition.js` that `recognizeFace`
reads and writes: the single-flight `recognitionActive` flag, whether
`require('face-api.js')` has completed (`faceapi` non-null), whether the
model artifacts have finished loading (`modelsLoaded`), and the known
people list obtained from the people module (`peopleModule.getKnownPeople`,
which returns the shared in-memory list). -/
structure RecognitionState where
  recognitionActive : Bool
  faceapiLoaded : Bool
  modelsLoaded : Bool
  knownPeople : List PersonDoc
  deriving Repr, DecidableEq

/-- The payload handed to `ui.displayRecognitionResult` on each exit path
of `recognizeFace` in `recognition.js`. -/
inductive RecognitionResult where
  /-- Case `detections.length === 0`: recognized false, no message. -/
  | noFace
  /-- Case `knownPeople.length === 0`: recognized false, "No people saved". -/
  | noPeople
  /-- A match below threshold: the found person and `match.distance`. -/
  | matched (person : PersonDoc) (confidence : ℚ)
  /-- The matcher returned label "unknown": "Face not recognized". -/
  | notRecognized
  /-- The catch branch: "Error analyzing face: " with the message. -/
  | error (msg : String)
  deriving Repr, DecidableEq

/-- Function `recognizeFace` from `recognition.js` (renderer module).  The camera
frame, image conversion and face detection are collapsed into the
`extraction` parameter: `Except.error msg` models a throw inside the try
block (caught and surfaced as an error result), `Except.ok ds` models
`detectAllFaces` succeeding with descriptor list `ds`.  The threshold is
`parseFloat(settings.getRecognitionThreshold())` and `now` is the clock
reading used by `updateLastRecognized`.  The returned `Option` is `none`
exactly when the function returns without producing any result (the
guard at the top); otherwise it is the result displayed, paired with the
post-state.  The database half of the fire-and-forget
`updateLastRecognized` call is outside `RecognitionState` and not
modelled; its in-memory half (updating the shared `knownPeople` entry)
is. -/
def recognizeFace (st : RecognitionState) (threshold : ℚ)
    (dist : Descriptor → Descriptor → ℚ)
    (extraction : Except String (List Descriptor)) (now : Nat) :
    Option RecognitionResult × RecognitionState :=
  if st.recognitionActive || !st.faceapiLoaded || !st.modelsLoaded then
    (none, st)
  else
    match extraction with
    | .error msg => (some (.error msg), { st with recognitionActive := false })
    | .ok [] => (some .noFace, { st with recognitionActive := false })
    | .ok (d :: _) =>
      if st.knownPeople.length = 0 then
        (some .noPeople, { st with recognitionActive := false })
      else
        let gallery := st.knownPeople.map
          (fun p => GalleryEntry.mk p._id (p.data.faceDescriptor.getD []))
        let m := findBestMatch dist gallery threshold d
        if m.label ≠ "unknown" then
          match st.knownPeople.find? (fun p => p._id == m.label) with
          | some person =>
            (some (.matched person m.distance),
              { st with
                recognitionActive := false
                knownPeople := setFirst st.knownPeople person._id
                  (fun p => { p with data := { p.data with lastRecognized := some now } }) })
          | none =>
            (some (.error "person lookup failed"),
              { st with recognitionActive := false })
        else
          (some .notRecognized, { st with recognitionActive := false })

end Recognition

namespace People

/-- An entry of the module-level `faceDescriptors` array in `people.js`:
the photo path it came from and the descriptor extracted from it. -/
structure PhotoDescriptor where
  path : String
  descriptor : Descriptor
  deriving Repr, DecidableEq

/-- The module-level mutable state of `people.js`: the in-memory
`knownPeople` cache, the `selectedPhotos` and `faceDescriptors` arrays
filled by `selectPhotos`, and the `editingPersonId` set by
`editPerson`. -/
structure PeopleState where
  knownPeople : List PersonDoc
  selectedPhotos : List String
  faceDescriptors : List PhotoDescriptor
  editingPersonId : Option String
  deriving Repr, DecidableEq

/-- The outcome of `recognition.getFaceDescriptor` for one image:
`valid` with the descriptor, or `invalid` with an error message (the
function catches its own exceptions and returns a valid flag). -/
inductive DetectOutcome where
  | valid (descriptor : Descriptor)
  | invalid (error : String)
  deriving Repr, DecidableEq

/-- One element of the `photoResults` array returned by
`selectPhotos`. -/
structure PhotoResult where
  path : String
  valid : Bool
  error : Option String
  deriving Repr, DecidableEq

/-- The photo-processing loop of `selectPhotos` in `people.js`: for each
file path in order, the path is pushed onto `selectedPhotos`; when
detection succeeds the descriptor is pushed onto `faceDescriptors`; a
photo result is recorded either way.  Returns the three arrays in
selection order. -/
def processPhotos (detect : String → DetectOutcome) :
    List String → List String × List PhotoDescriptor × List PhotoResult
  | [] => ([], [], [])
  | fp :: rest =>
    match detect fp, processPhotos detect rest with
    | .valid d, (sel, fds, res) =>
      (fp :: sel, ⟨fp, d⟩ :: fds, ⟨fp, true, none⟩ :: res)
    | .invalid e, (sel, fds, res) =>
      (fp :: sel, fds, ⟨fp, false, some e⟩ :: res)

/-- Function `selectPhotos` from `people.js`: resets `selectedPhotos` and
`faceDescriptors`, processes the dialog-selected `filePaths` (the
detection outcome for each path is the environment parameter `detect`),
and returns the per-photo results together with the updated module
state. -/
def selectPhotos (st : PeopleState) (filePaths : List String)
    (detect : String → DetectOutcome) : List PhotoResult × PeopleState :=
  let r := processPhotos detect filePaths
  (r.2.2, { st with selectedPhotos := r.1, faceDescriptors := r.2.1 })

/-- The form fields passed to `savePerson` as `personData`. -/
structure PersonForm where
  name : String
  relationship : String
  notes : String
  deriving Repr, DecidableEq

/-- The observable outcome of `savePerson`: a validation alert (with its
message), a successful save of a new person (with the stored document),
a successful update of an existing person, or the catch branch after a
database failure. -/
inductive SaveResult where
  | validationError (msg : String)
  | saved (doc : PersonDoc)
  | updated
  | dbError
  deriving Repr, DecidableEq

/-- Function `savePerson` from `people.js`: rejects an empty trimmed name, then
rejects an empty `faceDescriptors` array; otherwise updates the person
being edited or inserts a new person whose `faceDescriptor` is the first
entry of `faceDescriptors`, whose `images` are all of `selectedPhotos`,
with `createdAt := now` and no `lastRecognized`.  On success the
`selectedPhotos` / `faceDescriptors` / `editingPersonId` state is reset
and `knownPeople` is updated; on a database error the state is left as
it was. -/
def savePerson (st : PeopleState) (db : Database.DbState) (pd : PersonForm)
    (freshId : String) (now : Nat) :
    SaveResult × PeopleState × Database.DbState :=
  if trimmed pd.name = "" then
    (.validationError "Please enter a name for the person.", st, db)
  else
    match st.faceDescriptors with
    | [] =>
      (.validationError "Please select at least one photo with a detectable face.",
        st, db)
    | fd :: _ =>
      match st.editingPersonId with
      | some pid =>
        let upd : PersonUpdate :=
          ⟨pd.name, pd.relationship, pd.notes, st.selectedPhotos, some fd.descriptor⟩
        match Database.updatePerson db pid upd with
        | .error _ => (.dbError, st, db)
        | .ok (_, db2) =>
          (.updated,
            { knownPeople := setFirst st.knownPeople pid (fun p => applyUpdate p upd)
              selectedPhotos := []
              faceDescriptors := []
              editingPersonId := none },
            db2)
      | none =>
        let newPerson : PersonData :=
          ⟨pd.name, pd.relationship, pd.notes, some fd.descriptor,
            st.selectedPhotos, now, none⟩
        match Database.addPerson db freshId newPerson with
        | .error _ => (.dbError, st, db)
        | .ok (savedDoc, db2) =>
          (.saved savedDoc,
            { knownPeople := st.knownPeople ++ [savedDoc]
              selectedPhotos := []
              faceDescriptors := []
              editingPersonId := none },
            db2)

/-- Function `deletePerson` from `people.js`: after the confirmation prompt
(`confirmed`), deletes the person from the database and filters them out
of the in-memory `knownPeople` list; without confirmation nothing
happens and no result is produced. -/
def deletePerson (st : PeopleState) (db : Database.DbState)
    (person : PersonDoc) (confirmed : Bool) :
    Option Bool × PeopleState × Database.DbState :=
  if confirmed then
    match Database.deletePerson db person._id with
    | .error _ => (some false, st, db)
    | .ok (_, db2) =>
      (some true,
        { st with knownPeople := st.knownPeople.filter (fun p => p._id != person._id) },
        db2)
  else
    (none, st, db)

/-- Function `exportData` from `people.js`: serializes the `knownPeople` array to
a JSON file.  The JSON array of person records is modelled as the list
of records itself. -/
def exportData (st : PeopleState) : List PersonDoc := st.knownPeople

/-- The clearing loop of `importData`: `for (person of knownPeople)
await db.deletePerson(person._id)`.  A database failure aborts the loop
(the thrown rejection reaches the surrounding catch), carrying the
partially-cleared store. -/
def deleteAll (db : Database.DbState) :
    List PersonDoc → Except (String × Database.DbState) Database.DbState
  | [] => .ok db
  | p :: ps =>
    match Database.deletePerson db p._id with
    | .error e => .error (e, db)
    | .ok (_, db2) => deleteAll db2 ps

/-- The inserting loop of `importData`: each imported record is stripped
of its `_id` (it is paired here with the fresh identifier the store will
assign) and inserted as new.  A database failure aborts the loop. -/
def insertAll (db : Database.DbState) :
    List (String × PersonData) → Except (String × Database.DbState) Database.DbState
  | [] => .ok db
  | (i, p) :: rest =>
    match Database.addPerson db i p with
    | .error e => .error (e, db)
    | .ok (_, db2) => insertAll db2 rest

/-- Insertion step for the name-ascending sort applied by
`getAllPeople`'s `.sort({name: 1})` when `loadSavedPeople` reloads the
cache. -/
def insertByName (p : PersonDoc) : List PersonDoc → List PersonDoc
  | [] => [p]
  | q :: qs => if p.data.name < q.data.name then p :: q :: qs else q :: insertByName p qs

/-- Name-ascending sort of the stored documents, modelling the
`.sort({name: 1})` ordering of `getAllPeople`. -/
def sortByName (l : List PersonDoc) : List PersonDoc := l.foldr insertByName []

/-- Function `importData` from `people.js`: `parsed` is the result of
`JSON.parse` plus the `Array.isArray` check (`none` models a parse
failure or a non-array, which is reported as a failed import), and
`confirmed` is the answer to the replacement confirmation prompt.  On a
confirmed import the current `knownPeople` are all deleted from the
store, then every imported record is re-inserted with its `_id`
stripped (fresh store identifiers are supplied as `freshIds`), and the
cache is reloaded from the store sorted by name.  Without confirmation
the function returns with no effect. -/
def importData (st : PeopleState) (db : Database.DbState)
    (parsed : Option (List PersonDoc)) (confirmed : Bool)
    (freshIds : List String) :
    Option Bool × PeopleState × Database.DbState :=
  match parsed with
  | none => (some false, st, db)
  | some imported =>
    if confirmed then
      match deleteAll db st.knownPeople with
      | .error (_, dbPartial) => (some false, st, dbPartial)
      | .ok db1 =>
        match insertAll db1 (freshIds.zip (imported.map (fun p => p.data))) with
        | .error (_, dbPartial) => (some false, st, dbPartial)
        | .ok db2 =>
          (some true, { st with knownPeople := sortByName db2.docs }, db2)
    else
      (none, st, db)

/-- The first photo path (in selection order) whose detection succeeded,
with its descriptor: the specification-side characterization of "the
first valid descriptor". -/
def firstValid (detect : String → DetectOutcome) :
    List String → Option (String × Descriptor)
  | [] => none
  | fp :: rest =>
    match detect fp with
    | .valid d => some (fp, d)
    | .invalid _ => firstValid detect rest

end People

lemma bestMatchFold_spec (dist : Descriptor → Descriptor → ℚ)
    (probe : Descriptor) (l : List GalleryEntry) (init : FaceMatch) :
    ((bestMatchFold dist probe init l = init ∨
        ∃ e ∈ l, bestMatchFold dist probe init l = ⟨e.label, dist e.descriptor probe⟩) ∧
      (bestMatchFold dist probe init l).distance ≤ init.distance ∧
      ∀ e ∈ l, (bestMatchFold dist probe init l).distance ≤ dist e.descriptor probe) := by
  induction l generalizing init with
  | nil =>
    refine ⟨Or.inl rfl, le_refl _, ?_⟩
    intro e he
    exact absurd he (List.not_mem_nil e)
  | cons a as ih =>
    have step :
        bestMatchFold dist probe init (a :: as) =
          bestMatchFold dist probe
            (if dist a.descriptor probe < init.distance then
              ⟨a.label, dist a.descriptor probe⟩
            else init) as := by
      simp [bestMatchFold, List.foldl_cons]
    by_cases h : dist a.descriptor probe < init.distance
    · have ihh := ih ⟨a.label, dist a.descriptor probe⟩
      rw [step, if_pos h]
      refine ⟨?_, ?_, ?_⟩
      · rcases ihh.1 with h1 | ⟨e, he, h1⟩
        · exact Or.inr ⟨a, List.mem_cons_self a as, h1⟩
        · exact Or.inr ⟨e, List.mem_cons_of_mem a he, h1⟩
      · exact le_trans ihh.2.1 (le_of_lt h)
      · intro e he
        rcases List.mem_cons.mp he with rfl | he'
        · exact ihh.2.1
        · exact ihh.2.2 e he'
    · have ihh := ih init
      rw [step, if_neg h]
      refine ⟨?_, ihh.2.1, ?_⟩
      · rcases ihh.1 with h1 | ⟨e, he, h1⟩
        · exact Or.inl h1
        · exact Or.inr ⟨e, List.mem_cons_of_mem a he, h1⟩
      · intro e he
        rcases List.mem_cons.mp he with rfl | he'
        · exact le_trans ihh.2.1 (le_of_not_lt h)
        · exact ihh.2.2 e he'

lemma findBestMatch_cons_spec (dist : Descriptor → Descriptor → ℚ)
    (e : GalleryEntry) (es : List GalleryEntry) (t : ℚ) (probe : Descriptor) :
    ((∃ g ∈ e :: es,
        (findBestMatch dist (e :: es) t probe).distance = dist g.descriptor probe) ∧
      (∀ g ∈ e :: es,
        (findBestMatch dist (e :: es) t probe).distance ≤ dist g.descriptor probe) ∧
      ((findBestMatch dist (e :: es) t probe).distance ≤ t →
        ∃ g ∈ e :: es,
          (findBestMatch dist (e :: es) t probe).label = g.label ∧
          (findBestMatch dist (e :: es) t probe).distance = dist g.descriptor probe) ∧
      (t < (findBestMatch dist (e :: es) t probe).distance →
        (findBestMatch dist (e :: es) t probe).label = "unknown")) := by
  have hspec := bestMatchFold_spec dist probe es ⟨e.label, dist e.descriptor probe⟩
  set best := bestMatchFold dist probe ⟨e.label, dist e.descriptor probe⟩ es with hbest
  have hmem : ∃ g ∈ e :: es, best.label = g.label ∧ best.distance = dist g.descriptor probe := by
    rcases hspec.1 with h1 | ⟨g, hg, h1⟩
    · exact ⟨e, List.mem_cons_self e es, by rw [h1], by rw [h1]⟩
    · exact ⟨g, List.mem_cons_of_mem e hg, by rw [h1], by rw [h1]⟩
  have hle : ∀ g ∈ e :: es, best.distance ≤ dist g.descriptor probe := by
    intro g hg
    rcases List.mem_cons.mp hg with rfl | hg'
    · exact hspec.2.1
    · exact hspec.2.2 g hg'
  by_cases ht : best.distance ≤ t
  · have heq : findBestMatch dist (e :: es) t probe = best := by
      rw [findBestMatch]
      simp only [← hbest]
      rw [if_pos ht]
    rw [heq]
    rcases hmem with ⟨g, hg, hlab, hdist⟩
    exact ⟨⟨g, hg, hdist⟩, hle, fun _ => ⟨g, hg, hlab, hdist⟩, fun hlt => absurd ht (not_le.mpr hlt)⟩
  · have heq : findBestMatch dist (e :: es) t probe = ⟨"unknown", best.distance⟩ := by
      rw [findBestMatch]
      simp only [← hbest]
      rw [if_neg ht]
    rw [heq]
    rcases hmem with ⟨g, hg, _, hdist⟩
    exact ⟨⟨g, hg, hdist⟩, hle, fun hc => absurd hc ht, fun _ => rfl⟩

/-- C1: with a non-empty gallery, `findBestMatch` returns a result whose
distance is the minimum distance from the probe to any gallery entry;
when that minimum distance is ≤ the threshold (inclusive boundary) the
returned label is the label of a gallery entry achieving the minimum,
and when the minimum distance exceeds the threshold the label is
"unknown" (no match). -/
theorem matcher_min_distance_inclusive_threshold
    (dist : Descriptor → Descriptor → ℚ) (g : List GalleryEntry)
    (t : ℚ) (probe : Descriptor) (hne : g ≠ []) :
    ((∃ e ∈ g, (findBestMatch dist g t probe).distance = dist e.descriptor probe) ∧
      (∀ e ∈ g, (findBestMatch dist g t probe).distance ≤ dist e.descriptor probe) ∧
      ((findBestMatch dist g t probe).distance ≤ t →
        ∃ e ∈ g, (findBestMatch dist g t probe).label = e.label ∧
          (findBestMatch dist g t probe).distance = dist e.descriptor probe) ∧
      (t < (findBestMatch dist g t probe).distance →
        (findBestMatch dist g t probe).label = "unknown")) := by
  match g with
  | [] => exact absurd rfl hne
  | e :: es => exact findBestMatch_cons_spec dist e es t probe

/-- Concrete instantiation of the matcher theorem: a one-entry gallery
whose entry is at distance 0 from the probe. -/
theorem matcher_min_distance_inclusive_threshold_witness :
    ((∃ e ∈ [GalleryEntry.mk "alice" [(0 : ℚ)]],
        (findBestMatch distSq [GalleryEntry.mk "alice" [(0 : ℚ)]] (3/5) [(0 : ℚ)]).distance =
          distSq e.descriptor [(0 : ℚ)]) ∧
      (∀ e ∈ [GalleryEntry.mk "alice" [(0 : ℚ)]],
        (findBestMatch distSq [GalleryEntry.mk "alice" [(0 : ℚ)]] (3/5) [(0 : ℚ)]).distance ≤
          distSq e.descriptor [(0 : ℚ)]) ∧
      ((findBestMatch distSq [GalleryEntry.mk "alice" [(0 : ℚ)]] (3/5) [(0 : ℚ)]).distance ≤ 3/5 →
        ∃ e ∈ [GalleryEntry.mk "alice" [(0 : ℚ)]],
          (findBestMatch distSq [GalleryEntry.mk "alice" [(0 : ℚ)]] (3/5) [(0 : ℚ)]).label = e.label ∧
          (findBestMatch distSq [GalleryEntry.mk "alice" [(0 : ℚ)]] (3/5) [(0 : ℚ)]).distance =
            distSq e.descriptor [(0 : ℚ)]) ∧
      ((3/5 : ℚ) < (findBestMatch distSq [GalleryEntry.mk "alice" [(0 : ℚ)]] (3/5) [(0 : ℚ)]).distance →
        (findBestMatch distSq [GalleryEntry.mk "alice" [(0 : ℚ)]] (3/5) [(0 : ℚ)]).label = "unknown")) :=
  matcher_min_distance_inclusive_threshold distSq [GalleryEntry.mk "alice" [(0 : ℚ)]] (3/5)
    [(0 : ℚ)] (by simp)

namespace Recognition

lemma recognizeFace_post (st : RecognitionState) (t : ℚ)
    (dist : Descriptor → Descriptor → ℚ)
    (ext : Except String (List Descriptor)) (now : Nat) :
    recognizeFace st t dist ext now = (none, st) ∨
      (recognizeFace st t dist ext now).2.recognitionActive = false := by
  rw [recognizeFace.eq_def]
  split
  · exact Or.inl rfl
  · split
    · exact Or.inr rfl
    · exact Or.inr rfl
    · split
      · exact Or.inr rfl
      · dsimp only
        split
        · split
          · exact Or.inr rfl
          · exact Or.inr rfl
        · exact Or.inr rfl

/-- C4: while a recognition is in flight (the single-flight flag is set)
a new `recognizeFace` call is a no-op producing no result and leaving
the state unchanged; and every call that does produce a result leaves
the single-flight flag cleared, whatever exit path was taken (error,
no face, empty gallery, match, or no match). -/
theorem single_flight_guard_and_release (st : RecognitionState) (t : ℚ)
    (dist : Descriptor → Descriptor → ℚ)
    (ext : Except String (List Descriptor)) (now : Nat) :
    ((st.recognitionActive = true → recognizeFace st t dist ext now = (none, st)) ∧
      ∀ r st', recognizeFace st t dist ext now = (some r, st') →
        st'.recognitionActive = false) := by
  constructor
  · intro ha
    rw [recognizeFace.eq_def, ha]
    simp
  · intro r st' h
    rcases recognizeFace_post st t dist ext now with hp | hp
    · rw [h] at hp
      exact absurd (congrArg Prod.fst hp) (by simp)
    · rw [h] at hp
      exact hp

/-- Concrete instantiation of the single-flight theorem: with the flag
set, the call is a no-op. -/
theorem single_flight_guard_and_release_witness :
    recognizeFace ⟨true, true, true, []⟩ (3/5) distSq (Except.ok []) 0 =
      (none, ⟨true, true, true, []⟩) :=
  (single_flight_guard_and_release ⟨true, true, true, []⟩ (3/5) distSq (Except.ok []) 0).1 rfl

/-- C5: recognition with an empty known-people list (empty gallery)
reports the not-recognized "no people saved" result for every probe
descriptor, without an error result; by the shape of `recognizeFace`
this exit is taken before the matcher is ever constructed or invoked. -/
theorem empty_gallery_no_match (t : ℚ) (dist : Descriptor → Descriptor → ℚ)
    (probe : Descriptor) (rest : List Descriptor) (now : Nat) :
    recognizeFace ⟨false, true, true, []⟩ t dist (Except.ok (probe :: rest)) now =
      (some .noPeople, ⟨false, true, true, []⟩) := by
  rw [recognizeFace.eq_def]
  simp

/-- C9 (counterexample): a recognition call made before the models have
loaded returns no result at all — the caller observes neither a success
nor an error value, only a silent no-op. -/
theorem not_ready_silent_noop_counterexample :
    recognizeFace ⟨false, true, false, []⟩ (3/5) distSq (Except.ok [[(1 : ℚ)]]) 0 =
      (none, ⟨false, true, false, []⟩) := by
  rw [recognizeFace.eq_def]
  simp

/-- C9 (amended): every `recognizeFace` call made before the model
artifacts have finished loading is a silent no-op: it produces no result
(no error value the caller can observe) and leaves the state
unchanged. -/
theorem not_ready_amended (st : RecognitionState) (t : ℚ)
    (dist : Descriptor → Descriptor → ℚ)
    (ext : Except String (List Descriptor)) (now : Nat)
    (h : st.modelsLoaded = false) :
    recognizeFace st t dist ext now = (none, st) := by
  rw [recognizeFace.eq_def, h]
  simp

/-- Concrete instantiation of the amended C9 theorem. -/
theorem not_ready_amended_witness :
    recognizeFace ⟨false, true, false, []⟩ (3/5) distSq (Except.ok [[(1 : ℚ)]]) 0 =
      (none, ⟨false, true, false, []⟩) :=
  not_ready_amended ⟨false, true, false, []⟩ (3/5) distSq (Except.ok [[(1 : ℚ)]]) 0 rfl

end Recognition

/-- C2: `savePerson` rejects an enrollment whose trimmed name is empty,
and an enrollment with zero valid face descriptors, each with the
corresponding validation alert; in both cases the people state and the
store are left unchanged, so no person record is created. -/
theorem save_validation_guards (st : People.PeopleState) (db : Database.DbState)
    (pd : People.PersonForm) (freshId : String) (now : Nat) :
    ((trimmed pd.name = "" →
        People.savePerson st db pd freshId now =
          (.validationError "Please enter a name for the person.", st, db)) ∧
      (trimmed pd.name ≠ "" → st.faceDescriptors = [] →
        People.savePerson st db pd freshId now =
          (.validationError "Please select at least one photo with a detectable face.",
            st, db))) := by
  constructor
  · intro h
    simp [People.savePerson, h]
  · intro h1 h2
    simp [People.savePerson, h1, h2]

/-- Concrete instantiations of the save-validation theorem: an empty
name is rejected, and a non-empty name with no valid descriptor is
rejected with the "detectable face" message. -/
theorem save_validation_guards_witness :
    (People.savePerson ⟨[], [], [], none⟩ ⟨true, []⟩ ⟨"", "", ""⟩ "id1" 0 =
        (.validationError "Please enter a name for the person.",
          ⟨[], [], [], none⟩, ⟨true, []⟩) ∧
      People.savePerson ⟨[], ["a.png"], [], none⟩ ⟨true, []⟩ ⟨"Alice", "", ""⟩ "id1" 0 =
        (.validationError "Please select at least one photo with a detectable face.",
          ⟨[], ["a.png"], [], none⟩, ⟨true, []⟩)) :=
  ⟨(save_validation_guards ⟨[], [], [], none⟩ ⟨true, []⟩ ⟨"", "", ""⟩ "id1" 0).1 (by decide),
    (save_validation_guards ⟨[], ["a.png"], [], none⟩ ⟨true, []⟩ ⟨"Alice", "", ""⟩ "id1" 0).2
      (by decide) rfl⟩

lemma recognizeFace_matched_mem (st : Recognition.RecognitionState) (t : ℚ)
    (dist : Descriptor → Descriptor → ℚ) (ext : Except String (List Descriptor))
    (now : Nat) (p : PersonDoc) (c : ℚ)
    (h : (Recognition.recognizeFace st t dist ext now).1 =
      some (.matched p c)) : p ∈ st.knownPeople := by
  rw [Recognition.recognizeFace.eq_def] at h
  split at h
  · simp at h
  · split at h
    · simp at h
    · simp at h
    · split at h
      · simp at h
      · dsimp only at h
        split at h
        · split at h
          · rename_i person heq
            have hperson : person ∈ st.knownPeople := List.mem_of_find?_eq_some heq
            simp only [Prod.fst] at h
            have : person = p := by
              have := Option.some.inj h
              exact (Recognition.RecognitionResult.matched.injEq _ _ _ _).mp this |>.1
            rw [← this]
            exact hperson
          · simp at h
        · simp at h

/-- C3: deleting a person (with confirmation, against an initialized
store) removes their identifier from the in-memory known-people list as
part of the delete operation, and every subsequent recognition that
builds its gallery from the resulting list can never produce a match
carrying the deleted identifier. -/
theorem delete_removes_from_recognition (st : People.PeopleState)
    (db : Database.DbState) (person : PersonDoc)
    (hinit : db.initialized = true) :
    ∃ st2 db2,
      People.deletePerson st db person true = (some true, st2, db2) ∧
      (∀ p ∈ st2.knownPeople, p._id ≠ person._id) ∧
      ∀ (act fl ml : Bool) (t : ℚ) (dist : Descriptor → Descriptor → ℚ)
        (ext : Except String (List Descriptor)) (now : Nat)
        (p : PersonDoc) (c : ℚ),
        (Recognition.recognizeFace ⟨act, fl, ml, st2.knownPeople⟩ t dist ext now).1 =
          some (.matched p c) → p._id ≠ person._id := by
  have h1 : People.deletePerson st db person true =
      (some true,
        { st with knownPeople := st.knownPeople.filter (fun p => p._id != person._id) },
        { db with docs := db.docs.filter (fun d => d._id != person._id) }) := by
    simp [People.deletePerson, Database.deletePerson, hinit]
  refine ⟨_, _, h1, ?_, ?_⟩
  · intro p hp
    have := List.of_mem_filter hp
    simpa using this
  · intro act fl ml t dist ext now p c h
    have hmem := recognizeFace_matched_mem ⟨act, fl, ml, _⟩ t dist ext now p c h
    have := List.of_mem_filter hmem
    simpa using this

/-- Concrete instantiation of the delete theorem: deleting the only
known person. -/
theorem delete_removes_from_recognition_witness :
    ∃ st2 db2,
      People.deletePerson
          ⟨[⟨"x", ⟨"Bob", "", "", some [(0 : ℚ)], [], 0, none⟩⟩], [], [], none⟩
          ⟨true, [⟨"x", ⟨"Bob", "", "", some [(0 : ℚ)], [], 0, none⟩⟩]⟩
          ⟨"x", ⟨"Bob", "", "", some [(0 : ℚ)], [], 0, none⟩⟩ true =
        (some true, st2, db2) ∧
      (∀ p ∈ st2.knownPeople, p._id ≠ "x") ∧
      ∀ (act fl ml : Bool) (t : ℚ) (dist : Descriptor → Descriptor → ℚ)
        (ext : Except String (List Descriptor)) (now : Nat)
        (p : PersonDoc) (c : ℚ),
        (Recognition.recognizeFace ⟨act, fl, ml, st2.knownPeople⟩ t dist ext now).1 =
          some (.matched p c) → p._id ≠ "x" :=
  delete_removes_from_recognition
    ⟨[⟨"x", ⟨"Bob", "", "", some [(0 : ℚ)], [], 0, none⟩⟩], [], [], none⟩
    ⟨true, [⟨"x", ⟨"Bob", "", "", some [(0 : ℚ)], [], 0, none⟩⟩]⟩
    ⟨"x", ⟨"Bob", "", "", some [(0 : ℚ)], [], 0, none⟩⟩ rfl

/-- C6 (counterexample): the store's `addPerson` performs no field
validation — inserting a person object with an empty name and no
faceDescriptor into an initialized store succeeds and returns the
record with its assigned identifier, where the claim says it must fail
with a ValidationError. -/
theorem add_person_unvalidated_counterexample :
    Database.addPerson ⟨true, []⟩ "id1" ⟨"", "", "", none, [], 0, none⟩ =
      .ok (⟨"id1", ⟨"", "", "", none, [], 0, none⟩⟩,
        ⟨true, [⟨"id1", ⟨"", "", "", none, [], 0, none⟩⟩]⟩) := rfl

/-- C6 (amended): `addPerson` fails only when the database is not
initialized; otherwise it inserts the given person object unvalidated
(even with an empty name or a missing faceDescriptor) and returns the
record with its store-assigned identifier.  The empty-name and
missing-descriptor validation is performed upstream by `savePerson`
before the store is reached. -/
theorem add_person_amended (db : Database.DbState) (freshId : String)
    (p : PersonData) :
    ((db.initialized = true →
        Database.addPerson db freshId p =
          .ok (⟨freshId, p⟩, { db with docs := db.docs ++ [⟨freshId, p⟩] })) ∧
      (db.initialized = false →
        Database.addPerson db freshId p = .error "Database not initialized")) := by
  constructor
  · intro h
    simp [Database.addPerson, h]
  · intro h
    simp [Database.addPerson, h]

/-- Concrete instantiation of the amended store-insert theorem. -/
theorem add_person_amended_witness :
    (Database.addPerson ⟨true, []⟩ "id1" ⟨"Alice", "", "", some [(1 : ℚ)], [], 0, none⟩ =
        .ok (⟨"id1", ⟨"Alice", "", "", some [(1 : ℚ)], [], 0, none⟩⟩,
          ⟨true, [⟨"id1", ⟨"Alice", "", "", some [(1 : ℚ)], [], 0, none⟩⟩]⟩) ∧
      Database.addPerson ⟨false, []⟩ "id1" ⟨"Alice", "", "", some [(1 : ℚ)], [], 0, none⟩ =
        .error "Database not initialized") :=
  ⟨(add_person_amended ⟨true, []⟩ "id1" ⟨"Alice", "", "", some [(1 : ℚ)], [], 0, none⟩).1 rfl,
    (add_person_amended ⟨false, []⟩ "id1" ⟨"Alice", "", "", some [(1 : ℚ)], [], 0, none⟩).2 rfl⟩

lemma processPhotos_sel (detect : String → People.DetectOutcome) (l : List String) :
    (People.processPhotos detect l).1 = l := by
  induction l with
  | nil => rfl
  | cons fp rest ih =>
    cases h : detect fp with
    | valid d => simp [People.processPhotos, h, ih]
    | invalid e => simp [People.processPhotos, h, ih]

lemma processPhotos_firstValid (detect : String → People.DetectOutcome)
    (l : List String) :
    (People.processPhotos detect l).2.1.head? =
      (People.firstValid detect l).map
        (fun q => People.PhotoDescriptor.mk q.1 q.2) := by
  induction l with
  | nil => rfl
  | cons fp rest ih =>
    cases h : detect fp with
    | valid d => simp [People.processPhotos, People.firstValid, h]
    | invalid e => simp [People.processPhotos, People.firstValid, h, ih]

/-- C7: saving a new person after a photo selection whose first valid
detection is `(fp0, d0)` stores a person whose `faceDescriptor` is
exactly `d0` (the first valid descriptor in selection order) and whose
`images` are exactly all the selected file paths in selection order,
valid or not. -/
theorem first_descriptor_and_all_images (st0 : People.PeopleState)
    (db : Database.DbState) (pd : People.PersonForm) (freshId : String)
    (now : Nat) (filePaths : List String)
    (detect : String → People.DetectOutcome) (fp0 : String) (d0 : Descriptor)
    (hname : trimmed pd.name ≠ "")
    (hinit : db.initialized = true)
    (hedit : st0.editingPersonId = none)
    (hfirst : People.firstValid detect filePaths = some (fp0, d0)) :
    People.savePerson (People.selectPhotos st0 filePaths detect).2 db pd freshId now =
      (.saved ⟨freshId, ⟨pd.name, pd.relationship, pd.notes, some d0, filePaths, now, none⟩⟩,
        ⟨(People.selectPhotos st0 filePaths detect).2.knownPeople ++
            [⟨freshId, ⟨pd.name, pd.relationship, pd.notes, some d0, filePaths, now, none⟩⟩],
          [], [], none⟩,
        { db with docs := db.docs ++
            [⟨freshId, ⟨pd.name, pd.relationship, pd.notes, some d0, filePaths, now, none⟩⟩] }) := by
  have hsel : (People.selectPhotos st0 filePaths detect).2.selectedPhotos = filePaths := by
    simp [People.selectPhotos, processPhotos_sel]
  have hhead : (People.selectPhotos st0 filePaths detect).2.faceDescriptors.head? =
      some ⟨fp0, d0⟩ := by
    simp [People.selectPhotos, processPhotos_firstValid, hfirst]
  have heditp : (People.selectPhotos st0 filePaths detect).2.editingPersonId = none := by
    simp [People.selectPhotos, hedit]
  cases hfds : (People.selectPhotos st0 filePaths detect).2.faceDescriptors with
  | nil =>
    rw [hfds] at hhead
    simp at hhead
  | cons a tl =>
    rw [hfds, List.head?_cons] at hhead
    have ha : a = ⟨fp0, d0⟩ := Option.some.inj hhead
    subst ha
    simp [People.savePerson, hname, hfds, heditp, Database.addPerson, hinit, hsel]

/-- Concrete instantiation of the first-descriptor theorem: two selected
photos, the first with no detectable face, the second valid. -/
theorem first_descriptor_and_all_images_witness :
    People.savePerson
        (People.selectPhotos ⟨[], [], [], none⟩ ["a.png", "b.png"]
          (fun fp => if fp == "b.png" then .valid [(1 : ℚ)]
            else .invalid "No face detected in image")).2
        ⟨true, []⟩ ⟨"Alice", "friend", ""⟩ "id1" 0 =
      (.saved ⟨"id1", ⟨"Alice", "friend", "", some [(1 : ℚ)], ["a.png", "b.png"], 0, none⟩⟩,
        ⟨(People.selectPhotos ⟨[], [], [], none⟩ ["a.png", "b.png"]
            (fun fp => if fp == "b.png" then .valid [(1 : ℚ)]
              else .invalid "No face detected in image")).2.knownPeople ++
            [⟨"id1", ⟨"Alice", "friend", "", some [(1 : ℚ)], ["a.png", "b.png"], 0, none⟩⟩],
          [], [], none⟩,
        ⟨true, [⟨"id1", ⟨"Alice", "friend", "", some [(1 : ℚ)], ["a.png", "b.png"], 0, none⟩⟩]⟩) :=
  first_descriptor_and_all_images ⟨[], [], [], none⟩ ⟨true, []⟩ ⟨"Alice", "friend", ""⟩
    "id1" 0 ["a.png", "b.png"]
    (fun fp => if fp == "b.png" then .valid [(1 : ℚ)]
      else .invalid "No face detected in image")
    "b.png" [(1 : ℚ)] (by decide) rfl rfl (by decide)

lemma deleteAll_ok (l : List PersonDoc) (db : Database.DbState)
    (hinit : db.initialized = true) :
    People.deleteAll db l =
      .ok ⟨true, l.foldl (fun ds p => ds.filter (fun d => d._id != p._id)) db.docs⟩ := by
  induction l generalizing db with
  | nil =>
    obtain ⟨i, ds⟩ := db
    simp only at hinit
    subst hinit
    rfl
  | cons p ps ih =>
    have hdel : Database.deletePerson db p._id =
        .ok (db.docs.length - (db.docs.filter (fun d => d._id != p._id)).length,
          { db with docs := db.docs.filter (fun d => d._id != p._id) }) := by
      simp [Database.deletePerson, hinit]
    simp only [People.deleteAll, hdel, List.foldl_cons]
    exact ih _ hinit

lemma foldl_filter_ids_nil (l : List PersonDoc) (ds : List PersonDoc)
    (h : ∀ d ∈ ds, ∃ p ∈ l, d._id = p._id) :
    l.foldl (fun ds p => ds.filter (fun d => d._id != p._id)) ds = [] := by
  induction l generalizing ds with
  | nil =>
    cases ds with
    | nil => rfl
    | cons d rest =>
      obtain ⟨p, hp, _⟩ := h d (List.mem_cons_self d rest)
      exact absurd hp (List.not_mem_nil p)
  | cons p ps ih =>
    rw [List.foldl_cons]
    apply ih
    intro d hd
    have hmem := List.mem_of_mem_filter hd
    have hne := List.of_mem_filter hd
    obtain ⟨q, hq, hdq⟩ := h d hmem
    rcases List.mem_cons.mp hq with rfl | hq2
    · exact absurd hdq (by simpa using hne)
    · exact ⟨q, hq2, hdq⟩

lemma insertAll_ok (pairs : List (String × PersonData)) (db : Database.DbState)
    (hinit : db.initialized = true) :
    People.insertAll db pairs =
      .ok ⟨true, db.docs ++ pairs.map (fun q => ⟨q.1, q.2⟩)⟩ := by
  induction pairs generalizing db with
  | nil =>
    obtain ⟨i, ds⟩ := db
    simp only at hinit
    subst hinit
    simp [People.insertAll]
  | cons q rest ih =>
    obtain ⟨i, p⟩ := q
    have hadd : Database.addPerson db i p =
        .ok (⟨i, p⟩, { db with docs := db.docs ++ [⟨i, p⟩] }) := by
      simp [Database.addPerson, hinit]
    simp only [People.insertAll, hadd]
    rw [ih { db with docs := db.docs ++ [(⟨i, p⟩ : PersonDoc)] } hinit]
    simp

/-- C8: exporting the people data and importing the exported JSON back
(confirmed, with the store in sync with the in-memory list and no other
mutation in between) succeeds and leaves the store holding exactly as
many records as before, where the i-th re-inserted record carries the
i-th fresh store identifier and data fields (name, relationship, notes,
faceDescriptor, images, createdAt, lastRecognized) equal to those of
the i-th exported record: identifiers are stripped on import and every
record is re-inserted as new. -/
theorem export_import_roundtrip (st : People.PeopleState)
    (db : Database.DbState) (freshIds : List String)
    (hinit : db.initialized = true)
    (hsync : db.docs = st.knownPeople)
    (hlen : freshIds.length = st.knownPeople.length) :
    ∃ st2,
      People.importData st db (some (People.exportData st)) true freshIds =
        (some true, st2,
          ⟨true, (freshIds.zip (st.knownPeople.map (fun p => p.data))).map
            (fun q => ⟨q.1, q.2⟩)⟩) ∧
      ((freshIds.zip (st.knownPeople.map (fun p => p.data))).map
          (fun q => (⟨q.1, q.2⟩ : PersonDoc))).length = st.knownPeople.length ∧
      ∀ (i : Nat)
        (h1 : i < ((freshIds.zip (st.knownPeople.map (fun p => p.data))).map
          (fun q => (⟨q.1, q.2⟩ : PersonDoc))).length)
        (h2 : i < st.knownPeople.length),
        (((freshIds.zip (st.knownPeople.map (fun p => p.data))).map
          (fun q => (⟨q.1, q.2⟩ : PersonDoc))).get ⟨i, h1⟩).data =
          (st.knownPeople.get ⟨i, h2⟩).data := by
  have hdel := deleteAll_ok st.knownPeople db hinit
  have hnil : st.knownPeople.foldl
      (fun ds p => ds.filter (fun d => d._id != p._id)) db.docs = [] := by
    apply foldl_filter_ids_nil
    intro d hd
    rw [hsync] at hd
    exact ⟨d, hd, rfl⟩
  rw [hnil] at hdel
  have hins := insertAll_ok
    (freshIds.zip (st.knownPeople.map (fun p => p.data))) ⟨true, []⟩ rfl
  refine ⟨{ st with knownPeople := (People.sortByName
      ((freshIds.zip (st.knownPeople.map (fun p => p.data))).map
        (fun q => ⟨q.1, q.2⟩))) }, ?_, ?_, ?_⟩
  · simp [People.importData, People.exportData, hdel, hins]
  · simp [hlen]
  · intro i h1 h2
    rw [List.get_eq_getElem, List.get_eq_getElem]
    simp [List.getElem_map, List.getElem_zip]

/-- Concrete instantiation of the round-trip theorem: one stored
person. -/
theorem export_import_roundtrip_witness :
    ∃ st2,
      People.importData
          ⟨[⟨"a", ⟨"Bob", "brother", "", some [(2 : ℚ)], ["b.png"], 5, none⟩⟩], [], [], none⟩
          ⟨true, [⟨"a", ⟨"Bob", "brother", "", some [(2 : ℚ)], ["b.png"], 5, none⟩⟩]⟩
          (some (People.exportData
            ⟨[⟨"a", ⟨"Bob", "brother", "", some [(2 : ℚ)], ["b.png"], 5, none⟩⟩], [], [], none⟩))
          true ["b"] =
        (some true, st2,
          ⟨true, ((["b"].zip
              (([⟨"a", ⟨"Bob", "brother", "", some [(2 : ℚ)], ["b.png"], 5, none⟩⟩] :
                List PersonDoc).map (fun p => p.data))).map
            (fun q => ⟨q.1, q.2⟩))⟩) ∧
      (((["b"].zip
          (([⟨"a", ⟨"Bob", "brother", "", some [(2 : ℚ)], ["b.png"], 5, none⟩⟩] :
            List PersonDoc).map (fun p => p.data))).map
        (fun q => (⟨q.1, q.2⟩ : PersonDoc))).length =
        ([⟨"a", ⟨"Bob", "brother", "", some [(2 : ℚ)], ["b.png"], 5, none⟩⟩] :
          List PersonDoc).length) ∧
      ∀ (i : Nat)
        (h1 : i < ((["b"].zip
          (([⟨"a", ⟨"Bob", "brother", "", some [(2 : ℚ)], ["b.png"], 5, none⟩⟩] :
            List PersonDoc).map (fun p => p.data))).map
          (fun q => (⟨q.1, q.2⟩ : PersonDoc))).length)
        (h2 : i < ([⟨"a", ⟨"Bob", "brother", "", some [(2 : ℚ)], ["b.png"], 5, none⟩⟩] :
          List PersonDoc).length),
        (((["b"].zip
          (([⟨"a", ⟨"Bob", "brother", "", some [(2 : ℚ)], ["b.png"], 5, none⟩⟩] :
            List PersonDoc).map (fun p => p.data))).map
          (fun q => (⟨q.1, q.2⟩ : PersonDoc))).get ⟨i, h1⟩).data =
          (([⟨"a", ⟨"Bob", "brother", "", some [(2 : ℚ)], ["b.png"], 5, none⟩⟩] :
            List PersonDoc).get ⟨i, h2⟩).data :=
  export_import_roundtrip
    ⟨[⟨"a", ⟨"Bob", "brother", "", some [(2 : ℚ)], ["b.png"], 5, none⟩⟩], [], [], none⟩
    ⟨true, [⟨"a", ⟨"Bob", "brother", "", some [(2 : ℚ)], ["b.png"], 5, none⟩⟩]⟩
    ["b"] rfl rfl rfl

/-- C10: an unconfirmed import leaves both the in-memory list and the
store untouched; a confirmed import (store in sync, one fresh identifier
per imported record) first deletes every record currently in the store
and only then inserts the imported records, so the resulting store
consists exactly of the imported records under fresh identifiers; an
imported gallery thus replaces the old one rather than merging. -/
theorem import_replaces_not_merges (st : People.PeopleState)
    (db : Database.DbState) (imported : List PersonDoc) (freshIds : List String)
    (hinit : db.initialized = true)
    (hsync : db.docs = st.knownPeople)
    (_hlen : freshIds.length = imported.length) :
    ((People.importData st db (some imported) false freshIds = (none, st, db)) ∧
      ∃ st2, People.importData st db (some imported) true freshIds =
        (some true, st2,
          ⟨true, (freshIds.zip (imported.map (fun p => p.data))).map
            (fun q => ⟨q.1, q.2⟩)⟩)) := by
  constructor
  · simp [People.importData]
  · have hdel := deleteAll_ok st.knownPeople db hinit
    have hnil : st.knownPeople.foldl
        (fun ds p => ds.filter (fun d => d._id != p._id)) db.docs = [] := by
      apply foldl_filter_ids_nil
      intro d hd
      rw [hsync] at hd
      exact ⟨d, hd, rfl⟩
    rw [hnil] at hdel
    have hins := insertAll_ok (freshIds.zip (imported.map (fun p => p.data))) ⟨true, []⟩ rfl
    refine ⟨{ st with knownPeople := (People.sortByName
        ((freshIds.zip (imported.map (fun p => p.data))).map
          (fun q => ⟨q.1, q.2⟩))) }, ?_⟩
    simp [People.importData, hdel, hins]

/-- Concrete instantiation of the import-replacement theorem: one
existing record replaced by one imported record. -/
theorem import_replaces_not_merges_witness :
    ((People.importData
          ⟨[⟨"a", ⟨"Bob", "", "", some [(2 : ℚ)], [], 0, none⟩⟩], [], [], none⟩
          ⟨true, [⟨"a", ⟨"Bob", "", "", some [(2 : ℚ)], [], 0, none⟩⟩]⟩
          (some [⟨"z", ⟨"Carol", "", "", some [(3 : ℚ)], [], 1, none⟩⟩]) false ["b"] =
        (none,
          ⟨[⟨"a", ⟨"Bob", "", "", some [(2 : ℚ)], [], 0, none⟩⟩], [], [], none⟩,
          ⟨true, [⟨"a", ⟨"Bob", "", "", some [(2 : ℚ)], [], 0, none⟩⟩]⟩)) ∧
      ∃ st2, People.importData
          ⟨[⟨"a", ⟨"Bob", "", "", some [(2 : ℚ)], [], 0, none⟩⟩], [], [], none⟩
          ⟨true, [⟨"a", ⟨"Bob", "", "", some [(2 : ℚ)], [], 0, none⟩⟩]⟩
          (some [⟨"z", ⟨"Carol", "", "", some [(3 : ℚ)], [], 1, none⟩⟩]) true ["b"] =
        (some true, st2,
          ⟨true, ((["b"].zip
              (([⟨"z", ⟨"Carol", "", "", some [(3 : ℚ)], [], 1, none⟩⟩] :
                List PersonDoc).map (fun p => p.data))).map
            (fun q => ⟨q.1, q.2⟩))⟩)) :=
  import_replaces_not_merges
    ⟨[⟨"a", ⟨"Bob", "", "", some [(2 : ℚ)], [], 0, none⟩⟩], [], [], none⟩
    ⟨true, [⟨"a", ⟨"Bob", "", "", some [(2 : ℚ)], [], 0, none⟩⟩]⟩
    [⟨"z", ⟨"Carol", "", "", some [(3 : ℚ)], [], 1, none⟩⟩] ["b"] rfl rfl rfl
